import Mathlib

/-!
Verification development for the EPUB translation orchestrator
(src/translate_epub.py).  The Python source is shallowly embedded:
pure helpers become Lean functions; the stateful translation loop is
embedded with an explicit state record and oracles for the external
world (API-key activation outcomes and remote-call outcomes); machine
arithmetic does not occur.  Each definition is translated from the
source function it names.
-/

set_option autoImplicit false

namespace EpubTranslate

/-- Whitespace set of Python str.strip and of the regex class backslash-s
(ASCII whitespace plus the Unicode space characters). -/
def pyIsSpace (c : Char) : Bool :=
  c = ' ' || (9 ≤ c.toNat && c.toNat ≤ 13) || c.toNat = 0x85 || c.toNat = 0xa0 ||
  c.toNat = 0x1680 || (0x2000 ≤ c.toNat && c.toNat ≤ 0x200a) ||
  c.toNat = 0x2028 || c.toNat = 0x2029 || c.toNat = 0x202f ||
  c.toNat = 0x205f || c.toNat = 0x3000

/-- Python text.strip() on a character list: drop leading and trailing whitespace. -/
def pyStripL (l : List Char) : List Char :=
  ((l.dropWhile pyIsSpace).reverse.dropWhile pyIsSpace).reverse

/-- Python text.strip() on strings. -/
def pyStripS (s : String) : String :=
  String.mk (pyStripL s.data)

/-- CJK Unified Ideographs range u4e00 to u9fff, as in the source regex
`[u4e00-u9fffA-Za-z]` of is_meaningful_text. -/
def isCJK (c : Char) : Bool :=
  0x4e00 ≤ c.toNat && c.toNat ≤ 0x9fff

/-- ASCII Latin letters A-Z a-z. -/
def isLatinLetter (c : Char) : Bool :=
  ('A' ≤ c && c ≤ 'Z') || ('a' ≤ c && c ≤ 'z')

/-- Cyrillic block u0400 to u04ff (used to discuss the spec; the source
regex does not include it). -/
def isCyrillic (c : Char) : Bool :=
  0x400 ≤ c.toNat && c.toNat ≤ 0x4ff

/-- ASCII digit. -/
def isDigitC (c : Char) : Bool :=
  '0' ≤ c && c ≤ '9'

/-- Python c.isalnum(), modelled on the character ranges exercised by this
development: ASCII digits and letters, CJK Unified Ideographs, Cyrillic. -/
def pyIsAlnum (c : Char) : Bool :=
  isDigitC c || isLatinLetter c || isCJK c || isCyrillic c

/-- The symbol character class `[-*=/_#.]` shared by the three symbol
patterns in is_meaningful_text. -/
def isSymCls (c : Char) : Bool :=
  c = '-' || c = '*' || c = '=' || c = '/' || c = '_' || c = '#' || c = '.'

/-- The middle segment language of the sandwich pattern: whitespace, an
optional single ASCII letter, whitespace. -/
def isMiddleSeg (l : List Char) : Bool :=
  match l.dropWhile pyIsSpace with
  | [] => true
  | c :: rest => isLatinLetter c && (rest.dropWhile pyIsSpace).isEmpty

/-- Full match of the regex
`([-*=/_#.])+ s* [A-Za-z]? s* ([-*=/_#.])+` (with s the whitespace class):
a nonempty symbol run, optional whitespace and a single optional letter,
then a nonempty symbol run.  When the whole string is symbols the two runs
split it, so any length of at least two matches; otherwise, because the
middle may not contain symbols, the runs are exactly the maximal leading
and trailing symbol runs. -/
def symSandwichMatch (l : List Char) : Bool :=
  if l.all isSymCls then decide (2 ≤ l.length)
  else
    let a := l.takeWhile isSymCls
    let b := (l.reverse.takeWhile isSymCls).reverse
    (!a.isEmpty) && (!b.isEmpty) &&
      isMiddleSeg ((l.drop a.length).take (l.length - a.length - b.length))

/-- Full match of the regex `([-*=/_#.])\1+`: a single symbol character
repeated at least twice (the backreference forces one repeated character). -/
def repeatedSymMatch (l : List Char) : Bool :=
  match l with
  | [] => false
  | c :: rest => isSymCls c && decide (1 ≤ rest.length) && rest.all (fun d => d = c)

/-- Full match of the regex `d[d s .]*` (d the digit class, s whitespace):
a digit followed by digits, whitespace and dots. -/
def digitRunMatch (l : List Char) : Bool :=
  match l with
  | [] => false
  | c :: rest => isDigitC c && rest.all (fun d => isDigitC d || pyIsSpace d || d = '.')

/-- is_meaningful_text from the source.  The float comparison
alphanum_chars / total_chars < 0.15 is embedded as the exact rational
comparison alphanum * 100 < total * 15; the two can only disagree for
texts of more than 10^15 characters. -/
def is_meaningful_text (text : String) : Bool :=
  let l := text.data
  if (pyStripL l).isEmpty then false
  else if l.any (fun c => isCJK c || isLatinLetter c) then
    let alphanumChars := (l.filter pyIsAlnum).length
    let totalChars := l.length
    if 0 < totalChars && alphanumChars * 100 < totalChars * 15 then
      if symSandwichMatch (pyStripL l) then false else true
    else true
  else if repeatedSymMatch (pyStripL l) || digitRunMatch (pyStripL l) then false
  else false

/-- Claim C9: the meaningfulness filter satisfies the five spec test
vectors: "12345" and "----" and "---A---" and the empty string are not
meaningful, while "Hello world" is. -/
theorem is_meaningful_spec_vectors :
    is_meaningful_text "12345" = false ∧
    is_meaningful_text "Hello world" = true ∧
    is_meaningful_text "----" = false ∧
    is_meaningful_text "---A---" = false ∧
    is_meaningful_text "" = false := by
  decide

/-- Claim C8, counterexample: the purely Cyrillic text is judged NOT
meaningful, because the script-detection regex of is_meaningful_text
covers only CJK ideographs and Latin letters, and the fallthrough branch
returns false. -/
theorem is_meaningful_cyrillic_false :
    is_meaningful_text "Привет мир" = false ∧
    "Привет мир".data.all (fun c => isCyrillic c || pyIsSpace c) = true := by
  decide

/-- Claim C8, amended: the script detection of is_meaningful_text covers
only Latin letters and CJK ideographs; any text containing neither is
judged not meaningful (the default branch returns false, there is no
otherwise-meaningful rule on that side). -/
theorem no_latin_cjk_not_meaningful (text : String)
    (h : text.data.any (fun c => isCJK c || isLatinLetter c) = false) :
    is_meaningful_text text = false := by
  unfold is_meaningful_text
  simp only [h]
  split
  · rfl
  · simp only [Bool.false_eq_true, if_false]
    split <;> rfl

/-- Witness for no_latin_cjk_not_meaningful at the Cyrillic test text. -/
theorem no_latin_cjk_not_meaningful_witness :
    is_meaningful_text "Привет мир" = false :=
  no_latin_cjk_not_meaningful "Привет мир" (by decide)

/-! ## Rotation pool and translation client (translate_text) -/

/-- Outcome of one call of the remote model, classifying the source's
handling: a response object whose text field holds the given string,
a google ResourceExhausted exception, or any other exception. -/
inductive ApiResult where
  | ok (text : String)
  | quota
  | genErr
deriving DecidableEq

/-- The external world of the translation client: the API key list read
from the command line, an oracle telling whether the n-th configure
attempt with a given key succeeds, and an oracle giving the outcome of
the n-th remote generate_content call. -/
structure Env where
  keys : List String
  setupOk : Nat → String → Bool
  remote : Nat → ApiResult

/-- The module-level mutable state of the source: whether _current_model
is set, the position of the itertools.cycle iterator over _api_keys
(none before first creation), plus instrumentation counters for the two
oracles and a counter of key-rotation sweeps that returned failure.
The counters record how often each external capability was invoked;
they do not influence control flow. -/
structure GState where
  currentModel : Bool
  iterPos : Option Nat
  setupCalls : Nat
  remoteCalls : Nat
  rotFailures : Nat
deriving DecidableEq, Repr

/-- setup_gemini_api: attempt to configure the API with one key; on
success the current model is replaced, on failure it is left unchanged. -/
def setup_gemini_api (env : Env) (key : String) (s : GState) : Bool × GState :=
  let ok := env.setupOk s.setupCalls key
  let s := { s with setupCalls := s.setupCalls + 1 }
  if ok then (true, { s with currentModel := true }) else (false, s)

/-- The `for _ in range(len(_api_keys))` sweep inside
get_next_api_key_and_setup: try up to n keys starting at cycle position
pos, stopping at the first successful setup. -/
def rotateSweep (env : Env) : Nat → Nat → GState → Bool × Nat × GState
  | 0, pos, s => (false, pos, s)
  | n + 1, pos, s =>
    let r := setup_gemini_api env (env.keys.getD (pos % env.keys.length) "") s
    if r.1 then (true, pos + 1, r.2) else rotateSweep env n (pos + 1) r.2

/-- get_next_api_key_and_setup from the source: fail at once when no keys
exist, otherwise create the cycle iterator when absent and try every key
once, returning success at the first key that configures.  The
isInitialSetup flag is accepted and, as in the source, does not change
the behaviour. -/
def get_next_api_key_and_setup (env : Env) (_isInitialSetup : Bool) (s : GState) :
    Bool × GState :=
  if env.keys.isEmpty then (false, { s with rotFailures := s.rotFailures + 1 })
  else
    let r := rotateSweep env env.keys.length (s.iterPos.getD 0) s
    if r.1 then (true, { r.2.2 with iterPos := some r.2.1 })
    else (false, { r.2.2 with iterPos := some r.2.1, rotFailures := r.2.2.rotFailures + 1 })

/-- Result of one pass of the inner `for attempt in range(2)` retry loop
of translate_text: either a return from the whole function, or falling
back to the outer while loop. -/
inductive InnerOut where
  | ret (r : String × Bool)
  | toOuter
deriving DecidableEq

/-- The inner retry loop of translate_text, with `remaining` attempts
left (the source has max_retries_per_key = 2).  A nonempty response text
returns the stripped translation; an empty-text response retries then
falls to the outer loop; ResourceExhausted rotates at once, retries with
the current attempt counter when the whole pool is exhausted (the sleep
is not modelled); a general error retries, and on the last attempt
rotates, giving up with the original text when rotation is exhausted. -/
def innerLoop (env : Env) (textContent : String) : Nat → GState → InnerOut × GState
  | 0, s => (.toOuter, s)
  | remaining + 1, s =>
    let s1 : GState := { s with remoteCalls := s.remoteCalls + 1 }
    match env.remote s.remoteCalls with
    | .ok t =>
      if t = "" then
        if remaining = 0 then (.toOuter, s1)
        else innerLoop env textContent remaining s1
      else (.ret (pyStripS t, true), s1)
    | .quota =>
      let r := get_next_api_key_and_setup env false s1
      if r.1 then (.toOuter, r.2)
      else innerLoop env textContent remaining r.2
    | .genErr =>
      if remaining = 0 then
        let r := get_next_api_key_and_setup env false s1
        if r.1 then (.toOuter, r.2)
        else (.ret (textContent, false), r.2)
      else innerLoop env textContent remaining s1

/-- The outer `while True` loop of translate_text.  fuel bounds the
number of outer iterations so the embedding is total; none means the
loop was still running when the fuel ran out (the source loops
indefinitely by design). -/
def outerLoop (env : Env) (textContent : String) : Nat → GState → Option (String × Bool) × GState
  | 0, s => (none, s)
  | fuel + 1, s =>
    if s.currentModel then
      let p := innerLoop env textContent 2 s
      match p.1 with
      | .ret r => (some r, p.2)
      | .toOuter => outerLoop env textContent fuel p.2
    else
      let q := get_next_api_key_and_setup env false s
      if q.1 then
        let p := innerLoop env textContent 2 q.2
        match p.1 with
        | .ret r => (some r, p.2)
        | .toOuter => outerLoop env textContent fuel p.2
      else (some (textContent, false), q.2)

/-- translate_text from the source: empty or whitespace-only input
returns the empty string at once; input rejected by the meaningfulness
filter is passed through unchanged; otherwise the retry/rotate/cooldown
loop runs (bounded here by fuel). -/
def translate_text (env : Env) (textContent : String) (fuel : Nat) (s : GState) :
    Option (String × Bool) × GState :=
  if pyStripS textContent = "" then (some ("", true), s)
  else if is_meaningful_text textContent = false then (some (textContent, true), s)
  else outerLoop env textContent fuel s

/-! ## C5: rotation exhaustion -/

theorem rotateSweep_all_fail (env : Env) (h : ∀ n k, env.setupOk n k = false) :
    ∀ (n pos : Nat) (s : GState),
      rotateSweep env n pos s = (false, pos + n, { s with setupCalls := s.setupCalls + n })
  | 0, pos, s => by simp [rotateSweep]
  | n + 1, pos, s => by
    show (if (setup_gemini_api env _ s).1 then _ else _) = _
    rw [setup_gemini_api, h]
    simp only [if_false, Bool.false_eq_true]
    rw [rotateSweep_all_fail env h n (pos + 1)]
    have h1 : pos + 1 + n = pos + (n + 1) := by omega
    have h2 : s.setupCalls + 1 + n = s.setupCalls + (n + 1) := by omega
    simp [h1, h2]

/-- Claim C5: when every configuration fails to activate, a single
rotation sweep terminates with failure after exactly one setup attempt
per key in the pool: the setup-attempt counter advances by exactly the
pool size, never fewer attempts and never more than one full cycle. -/
theorem rotation_exhaustion (env : Env) (isInit : Bool) (s : GState)
    (h : ∀ n k, env.setupOk n k = false) :
    (get_next_api_key_and_setup env isInit s).1 = false ∧
    ((get_next_api_key_and_setup env isInit s).2).setupCalls =
      s.setupCalls + env.keys.length := by
  unfold get_next_api_key_and_setup
  by_cases hk : env.keys.isEmpty
  · have hnil : env.keys = [] := List.isEmpty_iff.mp hk
    simp [hk, hnil]
  · simp only [hk, if_false, Bool.false_eq_true]
    rw [rotateSweep_all_fail env h env.keys.length (s.iterPos.getD 0) s]
    simp

/-- Witness for rotation_exhaustion: a pool of three keys that all fail
yields failure after exactly three setup attempts. -/
theorem rotation_exhaustion_witness :
    (get_next_api_key_and_setup ⟨["a", "b", "c"], fun _ _ => false, fun _ => .genErr⟩
        false ⟨false, none, 0, 0, 0⟩).1 = false ∧
    ((get_next_api_key_and_setup ⟨["a", "b", "c"], fun _ _ => false, fun _ => .genErr⟩
        false ⟨false, none, 0, 0, 0⟩).2).setupCalls = 0 + 3 :=
  rotation_exhaustion _ false _ (fun _ _ => rfl)

/-! ## C6: pass-through of non-meaningful input -/

/-- A world with no keys, never-succeeding setup and always-erroring
remote calls; its oracles are never consulted by the runs below. -/
def env0 : Env := ⟨[], fun _ _ => false, fun _ => .genErr⟩

/-- A state in which a model is already active, as after the initial
setup done by main. -/
def s0true : GState := ⟨true, none, 0, 0, 0⟩

/-- Claim C6, counterexample: for the whitespace-only input the source
returns the empty string, not the original text (the state is untouched,
so no remote call happens, and succeeded is true, but the returned text
differs from the input). -/
theorem whitespace_input_not_returned_unchanged :
    translate_text env0 " " 1 s0true = (some ("", true), s0true) ∧
    ("" : String) ≠ " " := by
  constructor
  · rfl
  · decide

/-- Claim C6, amended: input judged not meaningful is resolved without
touching the state (hence with no remote call) and with succeeded =
true; the returned text is the original except for empty or
whitespace-only input, which resolves to the empty string. -/
theorem not_meaningful_pass_through (env : Env) (text : String) (fuel : Nat) (s : GState)
    (h : is_meaningful_text text = false) :
    translate_text env text fuel s =
      (some ((if pyStripS text = "" then "" else text), true), s) := by
  unfold translate_text
  by_cases hs : pyStripS text = "" <;> simp [hs, h]

/-- Witness for not_meaningful_pass_through at the numeric test vector. -/
theorem not_meaningful_pass_through_witness :
    translate_text env0 "12345" 1 s0true =
      (some ((if pyStripS "12345" = "" then "" else "12345"), true), s0true) :=
  not_meaningful_pass_through env0 "12345" 1 s0true (by decide)

/-! ## C4: the give-up paths of translate_text -/

/-- A world with one key whose activation always fails and whose remote
calls always raise a general (non-quota) error. -/
def envC4 : Env := ⟨["k"], fun _ _ => false, fun _ => .genErr⟩

/-- Claim C4, counterexample: with an active model, general API errors on
both retries followed by an exhausted rotation sweep make translate_text
return (original, succeeded = false) after two remote calls — so the
initial-setup path is not the only one that gives up: here remoteCalls
is 2, not 0. -/
theorem translate_text_fails_after_remote_calls :
    translate_text envC4 "Hello world" 5 s0true =
      (some ("Hello world", false),
        { currentModel := true, iterPos := some 1, setupCalls := 1,
          remoteCalls := 2, rotFailures := 1 }) := by
  decide

theorem rotateSweep_rotFailures (env : Env) :
    ∀ (n pos : Nat) (s : GState),
      ((rotateSweep env n pos s).2.2).rotFailures = s.rotFailures
  | 0, _, _ => rfl
  | n + 1, pos, s => by
    simp only [rotateSweep, setup_gemini_api]
    split
    · rfl
    · exact rotateSweep_rotFailures env n (pos + 1) _

theorem rot_result_rotFailures (env : Env) (b : Bool) (s : GState) :
    ((get_next_api_key_and_setup env b s).2).rotFailures =
      if (get_next_api_key_and_setup env b s).1 then s.rotFailures
      else s.rotFailures + 1 := by
  unfold get_next_api_key_and_setup
  by_cases hk : env.keys.isEmpty
  · simp [hk]
  · simp only [hk, if_false, Bool.false_eq_true]
    have h1 := rotateSweep_rotFailures env env.keys.length (s.iterPos.getD 0) s
    by_cases hr : (rotateSweep env env.keys.length (s.iterPos.getD 0) s).1 = true
    · simp [hr, h1]
    · simp only [Bool.not_eq_true] at hr
      simp [hr, h1]

theorem innerLoop_spec (env : Env) (text : String) :
    ∀ (n : Nat) (s : GState) (out : InnerOut) (s' : GState),
      innerLoop env text n s = (out, s') →
      s.rotFailures ≤ s'.rotFailures ∧
      (∀ t, out = .ret (t, false) → t = text ∧ s.rotFailures < s'.rotFailures)
  | 0, s, out, s', h => by
    cases h
    exact ⟨Nat.le_refl _, by intro t ht; cases ht⟩
  | n + 1, s, out, s', h => by
    simp only [innerLoop] at h
    split at h
    case h_1 t heq =>
      by_cases hne : t = ""
      · rw [if_pos hne] at h
        by_cases hn : n = 0
        · rw [if_pos hn] at h
          cases h
          exact ⟨Nat.le_refl _, by intro u hu; cases hu⟩
        · rw [if_neg hn] at h
          exact innerLoop_spec env text n { s with remoteCalls := s.remoteCalls + 1 } out s' h
      · rw [if_neg hne] at h
        cases h
        exact ⟨Nat.le_refl _, by intro u hu; cases hu⟩
    case h_2 heq =>
      have hrf := rot_result_rotFailures env false { s with remoteCalls := s.remoteCalls + 1 }
      rw [show ({ s with remoteCalls := s.remoteCalls + 1 } : GState).rotFailures =
        s.rotFailures from rfl] at hrf
      by_cases hrot : (get_next_api_key_and_setup env false
          { s with remoteCalls := s.remoteCalls + 1 }).1 = true
      · rw [if_pos hrot] at h
        rw [if_pos hrot] at hrf
        cases h
        exact ⟨Nat.le_of_eq hrf.symm, by intro u hu; cases hu⟩
      · rw [if_neg hrot] at h
        rw [if_neg hrot] at hrf
        have ih := innerLoop_spec env text n _ out s' h
        constructor
        · exact Nat.le_trans (by omega) ih.1
        · intro u hu
          exact ⟨(ih.2 u hu).1, Nat.lt_of_lt_of_le (by omega) ih.1⟩
    case h_3 heq =>
      by_cases hn : n = 0
      · rw [if_pos hn] at h
        have hrf := rot_result_rotFailures env false { s with remoteCalls := s.remoteCalls + 1 }
        rw [show ({ s with remoteCalls := s.remoteCalls + 1 } : GState).rotFailures =
          s.rotFailures from rfl] at hrf
        by_cases hrot : (get_next_api_key_and_setup env false
            { s with remoteCalls := s.remoteCalls + 1 }).1 = true
        · rw [if_pos hrot] at h
          rw [if_pos hrot] at hrf
          cases h
          exact ⟨Nat.le_of_eq hrf.symm, by intro u hu; cases hu⟩
        · rw [if_neg hrot] at h
          rw [if_neg hrot] at hrf
          cases h
          constructor
          · omega
          · intro u hu
            cases hu
            exact ⟨rfl, by omega⟩
      · rw [if_neg hn] at h
        exact innerLoop_spec env text n { s with remoteCalls := s.remoteCalls + 1 } out s' h

theorem outerLoop_false (env : Env) (text : String) :
    ∀ (fuel : Nat) (s : GState) (t : String) (s' : GState),
      outerLoop env text fuel s = (some (t, false), s') →
      t = text ∧ s.rotFailures < s'.rotFailures
  | 0, _, _, _, h => by cases h
  | fuel + 1, s, t, s', h => by
    rw [outerLoop] at h
    by_cases hm : s.currentModel = true
    · rw [if_pos hm] at h
      rcases hi : innerLoop env text 2 s with ⟨out, s1⟩
      rw [hi] at h
      have hspec := innerLoop_spec env text 2 s out s1 hi
      cases out with
      | ret r =>
        simp only at h
        cases h
        exact hspec.2 t rfl
      | toOuter =>
        simp only at h
        have ih := outerLoop_false env text fuel s1 t s' h
        exact ⟨ih.1, Nat.lt_of_le_of_lt hspec.1 ih.2⟩
    · rw [if_neg hm] at h
      have hrf := rot_result_rotFailures env false s
      by_cases hrot : (get_next_api_key_and_setup env false s).1 = true
      · rw [if_pos hrot] at h
        rw [if_pos hrot] at hrf
        rcases hi : innerLoop env text 2 (get_next_api_key_and_setup env false s).2
          with ⟨out, s2⟩
        rw [hi] at h
        have hspec := innerLoop_spec env text 2 _ out s2 hi
        cases out with
        | ret r =>
          simp only at h
          cases h
          have h2 := hspec.2 t rfl
          have h5 := h2.2
          rw [hrf] at h5
          exact ⟨h2.1, h5⟩
        | toOuter =>
          simp only at h
          have ih := outerLoop_false env text fuel s2 t s' h
          have h4 := hspec.1
          rw [hrf] at h4
          exact ⟨ih.1, Nat.lt_of_le_of_lt h4 ih.2⟩
      · rw [if_neg hrot] at h
        rw [if_neg hrot] at hrf
        cases h
        exact ⟨rfl, by omega⟩

/-- Claim C4, amended: translate_text returns succeeded = false exactly
on the paths where a rotation sweep over the whole pool has just failed
(the initial attempt to obtain a configuration, or the path where
general API errors have exhausted the per-key retries and the following
sweep finds no working key); every such return carries the original
text, and at least one exhausted sweep is recorded during the call —
quota errors and empty responses alone never give up. -/
theorem translate_text_false_needs_rotation_failure (env : Env) (text : String)
    (fuel : Nat) (s : GState) (t : String) (s' : GState)
    (h : translate_text env text fuel s = (some (t, false), s')) :
    t = text ∧ s.rotFailures < s'.rotFailures := by
  unfold translate_text at h
  by_cases hs : pyStripS text = ""
  · simp only [hs, if_true] at h
    cases h
  · simp only [hs, if_false] at h
    by_cases hmf : is_meaningful_text text = false
    · simp only [hmf, if_true] at h
      cases h
    · simp only [hmf, if_false] at h
      exact outerLoop_false env text fuel s t s' h

/-- Witness for translate_text_false_needs_rotation_failure at the
two-general-errors scenario. -/
theorem translate_text_false_needs_rotation_failure_witness :
    "Hello world" = "Hello world" ∧
    s0true.rotFailures <
      ({ currentModel := true, iterPos := some 1, setupCalls := 1,
         remoteCalls := 2, rotFailures := 1 } : GState).rotFailures :=
  translate_text_false_needs_rotation_failure envC4 "Hello world" 5 s0true
    "Hello world" _ (by decide)

/-! ## Dictionaries, text nodes and the per-file walk (translate_html_file) -/

/-- Python dict read: first matching key, none when absent. -/
def alookup {α β : Type} [DecidableEq α] : List (α × β) → α → Option β
  | [], _ => none
  | p :: rest, k => if p.1 = k then some p.2 else alookup rest k

/-- Python dict write: replace the value of an existing key in place,
append a new key at the end (dicts preserve insertion order). -/
def aupsert {α β : Type} [DecidableEq α] : List (α × β) → α → β → List (α × β)
  | [], k, v => [(k, v)]
  | p :: rest, k, v => if p.1 = k then (k, v) :: rest else p :: aupsert rest k v

theorem alookup_aupsert_self {α β : Type} [DecidableEq α] :
    ∀ (l : List (α × β)) (k : α) (v : β), alookup (aupsert l k v) k = some v
  | [], k, v => by simp [aupsert, alookup]
  | p :: rest, k, v => by
    by_cases hp : p.1 = k
    · simp [aupsert, hp, alookup]
    · simp only [aupsert, hp, if_false]
      rw [alookup, if_neg hp]
      exact alookup_aupsert_self rest k v

theorem alookup_aupsert_ne {α β : Type} [DecidableEq α] :
    ∀ (l : List (α × β)) (k k' : α) (v : β), k' ≠ k →
      alookup (aupsert l k v) k' = alookup l k'
  | [], k, k', v, hne => by
    simp [aupsert, alookup, Ne.symm hne]
  | p :: rest, k, k', v, hne => by
    by_cases hp : p.1 = k
    · simp [aupsert, hp, alookup, Ne.symm hne]
    · by_cases hq : p.1 = k'
      · simp only [aupsert, hp, if_false]
        simp [alookup, hq]
      · simp only [aupsert, hp, if_false, alookup, hq]
        exact alookup_aupsert_ne rest k k' v hne

/-- One text node of the parsed document: the tag name of its parent
element and its string content. -/
structure TextNode where
  parent : String
  text : String
deriving DecidableEq, Repr

/-- The tag names whose text nodes are not translated
(translate_html_file line 237). -/
def excludedParents : List String :=
  ["script", "style", "title", "meta", "link", "head", "noscript", "code"]

/-- Result of walking the text nodes of one file: the rewritten nodes,
the per-file cache scope after the walk, the client state, the
file_had_errors flag, and the chronological list of texts the
translation client was invoked on (instrumentation). -/
structure ProcOut (σ : Type) where
  outNodes : List TextNode
  cache : List (String × String)
  clientState : σ
  hadErrors : Bool
  trace : List String
deriving DecidableEq, Repr

/-- The per-text-node loop of translate_html_file (lines 236-256).
hashFn stands for the hex digest of hashlib.sha256 on the utf-8 bytes
(an arbitrary deterministic function of the stripped text), and client
for translate_text together with its threaded state.  For every node
whose parent is a content tag and whose stripped text is nonempty:
serve a cache hit, otherwise invoke the client, record an error on
failure, store any nonempty result, and replace the node text with any
nonempty result. -/
def processNodes {σ : Type} (hashFn : String → String)
    (client : σ → String → (String × Bool) × σ) :
    List TextNode → List (String × String) → σ → Bool → ProcOut σ
  | [], cache, st, errs => ⟨[], cache, st, errs, []⟩
  | node :: rest, cache, st, errs =>
    if node.parent ∈ excludedParents then
      let r := processNodes hashFn client rest cache st errs
      { r with outNodes := node :: r.outNodes }
    else
      let originalText := pyStripS node.text
      if originalText = "" then
        let r := processNodes hashFn client rest cache st errs
        { r with outNodes := node :: r.outNodes }
      else
        match alookup cache (hashFn originalText) with
        | some translated =>
          let node' := if translated = "" then node else { node with text := translated }
          let r := processNodes hashFn client rest cache st errs
          { r with outNodes := node' :: r.outNodes }
        | none =>
          let c := client st originalText
          let errs' := errs || !c.1.2
          let cache' := if c.1.1 = "" then cache
                        else aupsert cache (hashFn originalText) c.1.1
          let node' := if c.1.1 = "" then node else { node with text := c.1.1 }
          let r := processNodes hashFn client rest cache' c.2 errs'
          { r with outNodes := node' :: r.outNodes,
                   trace := originalText :: r.trace }

/-- translate_text packaged as the client used by translate_html_file:
the fuel bounds the unbounded retry loop, and the default value stands
for a run that would not have terminated (never reached in the runs
below, which always terminate within the given fuel). -/
def geminiClient (env : Env) (fuel : Nat) : GState → String → (String × Bool) × GState :=
  fun s text =>
    let p := translate_text env text fuel s
    ((p.1.getD (text, false)), p.2)

/-! ## Filesystem paths (modelled as lists of components) -/

/-- os.path.commonpath of two paths given as component lists: the longest
common component prefix. -/
def commonpath2 : List String → List String → List String
  | a :: as, b :: bs => if a = b then a :: commonpath2 as bs else []
  | _, _ => []

/-- os.path.relpath p start on component lists: one parent step for each
start component beyond the common prefix, then the remainder of p. -/
def relpathC (p start : List String) : List String :=
  let c := commonpath2 p start
  List.replicate (start.length - c.length) ".." ++ p.drop c.length

/-- The scope key computed at translate_html_file line 209:
os.path.relpath(file_path, os.path.commonpath([file_path,
os.path.dirname(file_path)])), with dirname being dropLast on component
lists. -/
def file_relative_path (p : List String) : List String :=
  relpathC p (commonpath2 p p.dropLast)

/-- One translatable document of the workspace: its path (component
list, as passed to translate_html_file) and its parsed text nodes. -/
structure EFile where
  path : List String
  nodes : List TextNode
deriving DecidableEq, Repr

/-- Result of translate_html_file: the rewritten file, the updated status
dict, the updated two-level cache, the client state and the trace of
client invocations. -/
structure FileOut (σ : Type) where
  file : EFile
  status : List (List String × String)
  cache : List (List String × List (String × String))
  clientState : σ
  trace : List String
deriving DecidableEq, Repr

/-- translate_html_file (lines 202-271): derive the cache scope key,
ensure its entry exists, walk the text nodes, write the per-file scope
back, and record the file status — "failed" when any segment failed,
"completed" otherwise.  The status key is the file path exactly as
passed (the source writes translation_status_dict[file_path]).
Parse failures of the external HTML parser are not modelled. -/
def translate_html_file {σ : Type} (hashFn : String → String)
    (client : σ → String → (String × Bool) × σ) (file : EFile)
    (status : List (List String × String))
    (cache : List (List String × List (String × String)))
    (st : σ) : FileOut σ :=
  let rel := file_relative_path file.path
  let scope := (alookup cache rel).getD []
  let r := processNodes hashFn client file.nodes scope st false
  { file := ⟨file.path, r.outNodes⟩
    status := aupsert status file.path (if r.hadErrors then "failed" else "completed")
    cache := aupsert cache rel r.cache
    clientState := r.clientState
    trace := r.trace }

/-- Result of the per-file loop of main: the files as left on disk, the
final status dict and cache, the client state, the concatenated client
trace, and the skipped-file counter of main. -/
structure RunOut (σ : Type) where
  files : List EFile
  status : List (List String × String)
  cache : List (List String × List (String × String))
  clientState : σ
  trace : List String
  skipped : Nat
deriving DecidableEq, Repr

/-- The Walking loop of main (lines 447-465): for each file compute its
path relative to the temp dir, read its status (default "pending"),
skip it untouched when "completed", otherwise run translate_html_file
and thread status, cache and client state (the after-each-file
persistence writes the very dicts threaded here). -/
def mainLoop {σ : Type} (hashFn : String → String)
    (client : σ → String → (String × Bool) × σ) (tempDir : List String) :
    List EFile → List (List String × String) →
    List (List String × List (String × String)) → σ → RunOut σ
  | [], status, cache, st => ⟨[], status, cache, st, [], 0⟩
  | f :: rest, status, cache, st =>
    let relPath := relpathC f.path tempDir
    if (alookup status relPath).getD "pending" = "completed" then
      let r := mainLoop hashFn client tempDir rest status cache st
      { r with files := f :: r.files, skipped := r.skipped + 1 }
    else
      let fo := translate_html_file hashFn client f status cache st
      let r := mainLoop hashFn client tempDir rest fo.status fo.cache fo.clientState
      { r with files := fo.file :: r.files, trace := fo.trace ++ r.trace }

/-- Identity stand-in for the sha256 hex digest in concrete runs; the
general theorems quantify over the hash function. -/
def idHash : String → String := fun s => s

/-! ## C2: client failure marks the file failed but the result is stored -/

/-- A world with one key that never activates; a client built on it fails
every meaningful segment before any remote call. -/
def envFail : Env := ⟨["k"], fun _ _ => false, fun _ => .ok "X"⟩

/-- The state before any model was activated. -/
def s0false : GState := ⟨false, none, 0, 0, 0⟩

/-- Claim C2, counterexample: when the client reports failure for the
segment, translate_html_file marks the file as having had an error and
leaves the original text, but the failed result (the original text
returned by translate_text) IS stored into the cache, because storage is
gated on nonemptiness of the returned text, not on success. -/
theorem failed_result_stored_in_cache :
    (processNodes idHash (geminiClient envFail 3)
        [⟨"p", "Hello world"⟩] [] s0false false).hadErrors = true ∧
    (processNodes idHash (geminiClient envFail 3)
        [⟨"p", "Hello world"⟩] [] s0false false).cache =
      [("Hello world", "Hello world")] ∧
    (processNodes idHash (geminiClient envFail 3)
        [⟨"p", "Hello world"⟩] [] s0false false).outNodes =
      [⟨"p", "Hello world"⟩] := by
  decide

/-- Claim C2, amended: on a cache miss where the client fails (returning
the original stripped text with succeeded = false), the walk marks the
file as having had an error and keeps the original text in the node, and
it also stores that original text into the cache: every nonempty result
is stored, failed or not. -/
theorem client_failure_marks_error_and_stores {σ : Type}
    (hashFn : String → String) (client : σ → String → (String × Bool) × σ)
    (parent text : String) (cache : List (String × String)) (st st' : σ)
    (hpar : parent ∉ excludedParents)
    (hs : pyStripS text ≠ "")
    (hmiss : alookup cache (hashFn (pyStripS text)) = none)
    (hfail : client st (pyStripS text) = ((pyStripS text, false), st')) :
    processNodes hashFn client [⟨parent, text⟩] cache st false =
      ⟨[⟨parent, pyStripS text⟩],
        aupsert cache (hashFn (pyStripS text)) (pyStripS text),
        st', true, [pyStripS text]⟩ := by
  simp [processNodes, hpar, hs, hmiss, hfail]

/-- A client that always fails, returning its input text. -/
def failClient : Unit → String → (String × Bool) × Unit :=
  fun s t => ((t, false), s)

/-- Witness for client_failure_marks_error_and_stores with the
always-failing client on one paragraph node. -/
theorem client_failure_marks_error_and_stores_witness :
    processNodes idHash failClient [⟨"p", "Hello world"⟩] [] () false =
      ⟨[⟨"p", pyStripS "Hello world"⟩],
        aupsert [] (idHash (pyStripS "Hello world")) (pyStripS "Hello world"),
        (), true, [pyStripS "Hello world"]⟩ :=
  client_failure_marks_error_and_stores idHash failClient "p" "Hello world" [] () ()
    (by decide) (by decide) (by decide) rfl

/-! ## C7: the cache scope key -/

/-- Claim C7, counterexample: two files at distinct relative paths inside
the workspace get the SAME cache scope key, because the expression at
line 209 collapses to the basename: commonpath of a path and its dirname
is the dirname, and relpath from the dirname is the last component. -/
theorem cache_scope_same_for_distinct_paths :
    file_relative_path ["a", "ch.xhtml"] = file_relative_path ["b", "ch.xhtml"] ∧
    (["a", "ch.xhtml"] : List String) ≠ ["b", "ch.xhtml"] := by
  decide

theorem commonpath2_append_left :
    ∀ (l t : List String), commonpath2 (l ++ t) l = l
  | [], t => by cases t <;> rfl
  | a :: as, t => by
    simp only [List.cons_append, commonpath2]
    rw [if_true]
    exact congrArg (a :: ·) (commonpath2_append_left as t)

theorem file_relative_path_concat (l : List String) (b : String) :
    file_relative_path (l ++ [b]) = [b] := by
  unfold file_relative_path relpathC
  rw [List.dropLast_concat, commonpath2_append_left, commonpath2_append_left]
  simp [List.drop_left]

/-- Claim C7, amended: the segment cache is keyed by the content hash of
the trimmed text but scoped by the owning file's LAST path component
(its basename), not by its relative path within the workspace: for every
nonempty path the scope key is the singleton basename, so files at
different directories sharing a filename share a cache scope. -/
theorem file_relative_path_eq_basename (p : List String) (h : p ≠ []) :
    file_relative_path p = [p.getLast h] := by
  have h2 := file_relative_path_concat p.dropLast (p.getLast h)
  rw [List.dropLast_append_getLast h] at h2
  exact h2

/-- Witness for file_relative_path_eq_basename. -/
theorem file_relative_path_eq_basename_witness :
    file_relative_path ["a", "ch.xhtml"] = ["ch.xhtml"] :=
  (file_relative_path_eq_basename ["a", "ch.xhtml"] (by decide)).trans (by decide)

/-! ## C1: resume does not skip completed files -/

/-- A world with one always-working key whose remote calls always return
the translation "X". -/
def envOk : Env := ⟨["k"], fun _ _ => true, fun _ => .ok "X"⟩

/-- One workspace file tmp/a.xhtml with a single paragraph node. -/
def fileA : EFile := ⟨["tmp", "a.xhtml"], [⟨"p", "Hello world"⟩]⟩

/-- First run of the Walking loop over the workspace, starting from an
empty status dict and empty cache. -/
def run1 : RunOut GState :=
  mainLoop idHash (geminiClient envOk 4) ["tmp"] [fileA] [] [] s0true

/-- Resumed run: the same loop fed the files, status dict and cache left
by run1, as main reloads them from the persisted state files. -/
def run2 : RunOut GState :=
  mainLoop idHash (geminiClient envOk 4) ["tmp"] run1.files run1.status run1.cache
    run1.clientState

/-- Claim C1: the first run records the file as "completed" — but under
its FULL path (translate_html_file keys the status dict by file_path),
while the resumed run looks the status up under the path relative to the
temp dir.  The lookup therefore misses, the resumed run skips nothing,
re-walks the completed file's nodes (the trace shows the client invoked
on its — already translated — text) and performs another remote call. -/
theorem resume_reprocesses_completed_file :
    run1.status = [(["tmp", "a.xhtml"], "completed")] ∧
    run1.clientState.remoteCalls = 1 ∧
    run2.skipped = 0 ∧
    run2.trace = ["X"] ∧
    run2.clientState.remoteCalls = 2 := by
  decide

/-! ## C3: the content-hash cache within one file -/

/-- A world whose remote calls always return a whitespace-only response
text: the response object is truthy, so translate_text strips it and
returns the empty string with succeeded = true. -/
def envWs : Env := ⟨["k"], fun _ _ => true, fun _ => .ok " "⟩

/-- Claim C3, counterexample: two nodes with identical trimmed text; the
remote response is the truthy whitespace string, translate_text returns
the empty string, the empty result is NOT stored into the cache, and the
second identical segment is NOT served from the cache: the client is
invoked twice, and two remote calls happen. -/
theorem identical_segments_two_remote_calls :
    (processNodes idHash (geminiClient envWs 3)
        [⟨"p", "Hello world"⟩, ⟨"p", "Hello world"⟩] [] s0true false).trace =
      ["Hello world", "Hello world"] ∧
    (processNodes idHash (geminiClient envWs 3)
        [⟨"p", "Hello world"⟩, ⟨"p", "Hello world"⟩] [] s0true false).cache = [] ∧
    (processNodes idHash (geminiClient envWs 3)
        [⟨"p", "Hello world"⟩, ⟨"p", "Hello world"⟩]
        [] s0true false).clientState.remoteCalls = 2 := by
  decide

theorem alookup_aupsert_or {α β : Type} [DecidableEq α] (l : List (α × β)) (k k' : α)
    (v w : β) (h : alookup (aupsert l k v) k' = some w) :
    w = v ∨ alookup l k' = some w := by
  by_cases hk : k' = k
  · subst hk
    rw [alookup_aupsert_self] at h
    exact Or.inl (Option.some.inj h).symm
  · rw [alookup_aupsert_ne l k k' v hk] at h
    exact Or.inr h

theorem processNodes_alookup_preserved {σ : Type} (hashFn : String → String)
    (client : σ → String → (String × Bool) × σ) :
    ∀ (nodes : List TextNode) (cache : List (String × String)) (st : σ) (e : Bool)
      (k v : String), alookup cache k = some v →
      alookup (processNodes hashFn client nodes cache st e).cache k = some v
  | [], _, _, _, _, _, hkv => hkv
  | node :: rest, cache, st, e, k, v, hkv => by
    simp only [processNodes]
    by_cases hp : node.parent ∈ excludedParents
    · rw [if_pos hp]
      exact processNodes_alookup_preserved hashFn client rest cache st e k v hkv
    · rw [if_neg hp]
      by_cases hs : pyStripS node.text = ""
      · rw [if_pos hs]
        exact processNodes_alookup_preserved hashFn client rest cache st e k v hkv
      · rw [if_neg hs]
        split
        next tv heq =>
          exact processNodes_alookup_preserved hashFn client rest cache st e k v hkv
        next heq =>
          by_cases hres : ((client st (pyStripS node.text)).1).1 = ""
          · rw [if_pos hres, if_pos hres]
            exact processNodes_alookup_preserved hashFn client rest cache _ _ k v hkv
          · rw [if_neg hres, if_neg hres]
            apply processNodes_alookup_preserved
            have hne : k ≠ hashFn (pyStripS node.text) := by
              intro hco
              rw [← hco, hkv] at heq
              cases heq
            rw [alookup_aupsert_ne cache _ k _ hne]
            exact hkv

theorem processNodes_no_call_of_present {σ : Type} (hashFn : String → String)
    (client : σ → String → (String × Bool) × σ) :
    ∀ (nodes : List TextNode) (cache : List (String × String)) (st : σ) (e : Bool)
      (s : String), alookup cache (hashFn s) ≠ none →
      s ∉ (processNodes hashFn client nodes cache st e).trace
  | [], _, _, _, _, _ => by simp [processNodes]
  | node :: rest, cache, st, e, s, hpres => by
    simp only [processNodes]
    by_cases hp : node.parent ∈ excludedParents
    · rw [if_pos hp]
      exact processNodes_no_call_of_present hashFn client rest cache st e s hpres
    · rw [if_neg hp]
      by_cases hs : pyStripS node.text = ""
      · rw [if_pos hs]
        exact processNodes_no_call_of_present hashFn client rest cache st e s hpres
      · rw [if_neg hs]
        split
        next tv heq =>
          exact processNodes_no_call_of_present hashFn client rest cache st e s hpres
        next heq =>
          have hsne : s ≠ pyStripS node.text := by
            intro hco
            rw [hco] at hpres
            exact hpres heq
          by_cases hres : ((client st (pyStripS node.text)).1).1 = ""
          · rw [if_pos hres, if_pos hres]
            intro hmem
            rcases List.mem_cons.mp hmem with hh | ht
            · exact hsne hh
            · exact processNodes_no_call_of_present hashFn client rest cache _ _ s hpres ht
          · rw [if_neg hres, if_neg hres]
            intro hmem
            rcases List.mem_cons.mp hmem with hh | ht
            · exact hsne hh
            · refine processNodes_no_call_of_present hashFn client rest _ _ _ s ?_ ht
              by_cases hk : hashFn s = hashFn (pyStripS node.text)
              · rw [hk, alookup_aupsert_self]
                exact fun hco => by cases hco
              · rw [alookup_aupsert_ne cache _ _ _ hk]
                exact hpres

theorem processNodes_count_le_one {σ : Type} (hashFn : String → String)
    (client : σ → String → (String × Bool) × σ)
    (hne : ∀ (st : σ) (t : String), ((client st t).1).1 ≠ "") :
    ∀ (nodes : List TextNode) (cache : List (String × String)) (st : σ) (e : Bool)
      (s : String),
      ((processNodes hashFn client nodes cache st e).trace.count s) ≤ 1
  | [], _, _, _, _ => by simp [processNodes]
  | node :: rest, cache, st, e, s => by
    simp only [processNodes]
    by_cases hp : node.parent ∈ excludedParents
    · rw [if_pos hp]
      exact processNodes_count_le_one hashFn client hne rest cache st e s
    · rw [if_neg hp]
      by_cases hs : pyStripS node.text = ""
      · rw [if_pos hs]
        exact processNodes_count_le_one hashFn client hne rest cache st e s
      · rw [if_neg hs]
        split
        next tv heq =>
          exact processNodes_count_le_one hashFn client hne rest cache st e s
        next heq =>
          rw [if_neg (hne st (pyStripS node.text))]
          rw [if_neg (hne st (pyStripS node.text))]
          by_cases hsu : s = pyStripS node.text
          · have hnotin : s ∉ (processNodes hashFn client rest
                (aupsert cache (hashFn (pyStripS node.text))
                  (((client st (pyStripS node.text))).1).1)
                ((client st (pyStripS node.text))).2
                (e || !((client st (pyStripS node.text))).1.2)).trace := by
              apply processNodes_no_call_of_present
              rw [hsu, alookup_aupsert_self]
              exact fun hco => by cases hco
            rw [List.count_cons, List.count_eq_zero.mpr hnotin]
            split <;> simp
          · rw [List.count_cons]
            have hbe : (pyStripS node.text == s) = false :=
              beq_eq_false_iff_ne.mpr (fun h => hsu h.symm)
            rw [hbe]
            simpa using processNodes_count_le_one hashFn client hne rest _ _ _ s

theorem processNodes_resolution {σ : Type} (hashFn : String → String)
    (client : σ → String → (String × Bool) × σ)
    (hne : ∀ (st : σ) (t : String), ((client st t).1).1 ≠ "") :
    ∀ (nodes : List TextNode) (cache : List (String × String)) (st : σ) (e : Bool),
      (∀ k v, alookup cache k = some v → v ≠ "") →
      List.Forall₂
        (fun nin nout =>
          nin.parent ∉ excludedParents → pyStripS nin.text ≠ "" →
          ∃ v, alookup (processNodes hashFn client nodes cache st e).cache
                 (hashFn (pyStripS nin.text)) = some v ∧ nout.text = v)
        nodes (processNodes hashFn client nodes cache st e).outNodes
  | [], _, _, _, _ => List.Forall₂.nil
  | node :: rest, cache, st, e, hc0 => by
    simp only [processNodes]
    by_cases hp : node.parent ∈ excludedParents
    · rw [if_pos hp]
      refine List.Forall₂.cons (fun h1 _ => absurd hp h1) ?_
      exact processNodes_resolution hashFn client hne rest cache st e hc0
    · rw [if_neg hp]
      by_cases hs : pyStripS node.text = ""
      · rw [if_pos hs]
        refine List.Forall₂.cons (fun _ h2 => absurd hs h2) ?_
        exact processNodes_resolution hashFn client hne rest cache st e hc0
      · rw [if_neg hs]
        split
        next tv heq =>
          have htv : tv ≠ "" := hc0 _ _ heq
          rw [if_neg htv]
          refine List.Forall₂.cons ?_ ?_
          · intro _ _
            refine ⟨tv, ?_, rfl⟩
            exact processNodes_alookup_preserved hashFn client rest cache st e _ tv heq
          · exact processNodes_resolution hashFn client hne rest cache st e hc0
        next heq =>
          rw [if_neg (hne st (pyStripS node.text))]
          rw [if_neg (hne st (pyStripS node.text))]
          have hc0' : ∀ k v, alookup (aupsert cache (hashFn (pyStripS node.text))
              (((client st (pyStripS node.text))).1).1) k = some v → v ≠ "" := by
            intro k v hkv
            rcases alookup_aupsert_or _ _ _ _ _ hkv with hv | hv
            · rw [hv]
              exact hne st (pyStripS node.text)
            · exact hc0 k v hv
          refine List.Forall₂.cons ?_ ?_
          · intro _ _
            refine ⟨(((client st (pyStripS node.text))).1).1, ?_, rfl⟩
            apply processNodes_alookup_preserved
            exact alookup_aupsert_self cache _ _
          · exact processNodes_resolution hashFn client hne rest _ _ _ hc0'

/-- Claim C3, amended: within one file walk, under the proviso that the
client never resolves a segment to the empty string (true of
translate_text whenever the remote response strips to nonempty text, and
on pass-through and on failure) and that the loaded cache has no empty
values, the client is invoked at most once per trimmed text, and any two
content nodes with the same nonempty trimmed text end with the same
final text, both governed by the single cache entry at the content hash
of that text.  (Without the proviso the empty result is not cached and
an identical later segment calls the client again.) -/
theorem cache_reuse_single_call {σ : Type} (hashFn : String → String)
    (client : σ → String → (String × Bool) × σ)
    (hne : ∀ (st : σ) (t : String), ((client st t).1).1 ≠ "")
    (nodes : List TextNode) (cache : List (String × String)) (st : σ) (e : Bool)
    (hc0 : ∀ k v, alookup cache k = some v → v ≠ "") (s : String) (hs0 : s ≠ "") :
    ((processNodes hashFn client nodes cache st e).trace.count s ≤ 1) ∧
    (∀ n1 m1 n2 m2,
      (n1, m1) ∈ nodes.zip (processNodes hashFn client nodes cache st e).outNodes →
      (n2, m2) ∈ nodes.zip (processNodes hashFn client nodes cache st e).outNodes →
      n1.parent ∉ excludedParents → n2.parent ∉ excludedParents →
      pyStripS n1.text = s → pyStripS n2.text = s →
      m1.text = m2.text) := by
  constructor
  · exact processNodes_count_le_one hashFn client hne nodes cache st e s
  · intro n1 m1 n2 m2 hm1 hm2 hp1 hp2 ht1 ht2
    have hfa := processNodes_resolution hashFn client hne nodes cache st e hc0
    have hse1 : pyStripS n1.text ≠ "" := by rw [ht1]; exact hs0
    have hse2 : pyStripS n2.text ≠ "" := by rw [ht2]; exact hs0
    have r1 := (List.forall₂_zip hfa hm1) hp1 hse1
    have r2 := (List.forall₂_zip hfa hm2) hp2 hse2
    rcases r1 with ⟨v1, hv1, hm1t⟩
    rcases r2 with ⟨v2, hv2, hm2t⟩
    rw [ht1] at hv1
    rw [ht2] at hv2
    rw [hv1] at hv2
    cases hv2
    rw [hm1t, hm2t]

/-! ## C10: enumeration order of translatable files -/

/-- Python s.endswith(suf), as a suffix test on the character lists
(String.endsWith itself works on byte positions, which the kernel cannot
evaluate). -/
def pyEndsWith (s suf : String) : Bool :=
  List.isSuffixOf suf.data s.data

/-- The suffix test of find_html_files:
file.endswith((".html", ".xhtml", ".htm")). -/
def isHtmlName (s : String) : Bool :=
  pyEndsWith s ".html" || pyEndsWith s ".xhtml" || pyEndsWith s ".htm"

/-- find_html_files from the source.  os.walk is an external capability;
its yielded sequence of (root, dirs, files) triples is the input here,
with the unused dirs component dropped (the source binds it to an
underscore).  For each walked directory, each file whose name has one of
the three suffixes is appended, joined to the root — in exactly the
order the walk yields; no sorting happens anywhere. -/
def find_html_files : List (List String × List String) → List (List String)
  | [] => []
  | (root, files) :: rest =>
    (files.filterMap fun f => if isHtmlName f then some (root ++ [f]) else none) ++
      find_html_files rest

/-- All file paths of the walk, in walk order, without the suffix test. -/
def walkFilesAll : List (List String × List String) → List (List String)
  | [] => []
  | (root, files) :: rest => files.map (fun f => root ++ [f]) ++ walkFilesAll rest

/-- Byte-wise (code point) comparison of strings, as Python compares
strings. -/
def charListLe : List Char → List Char → Bool
  | [], _ => true
  | _ :: _, [] => false
  | a :: as, b :: bs =>
    if a.toNat < b.toNat then true
    else if b.toNat < a.toNat then false
    else charListLe as bs

/-- Lexicographic order on paths given as component lists. -/
def pathLe : List String → List String → Bool
  | [], _ => true
  | _ :: _, [] => false
  | a :: as, b :: bs => if a = b then pathLe as bs else charListLe a.data b.data

/-- The path list is sorted in nondecreasing lexicographic order. -/
def pathsSorted : List (List String) → Bool
  | [] => true
  | [_] => true
  | a :: b :: rest => pathLe a b && pathsSorted (b :: rest)

/-- Claim C10, counterexample: when the OS directory listing yields
b.xhtml before a.xhtml, find_html_files returns them in that walk order;
the enumeration is NOT sorted by relative path (no sort is applied
anywhere between the walk and the per-file loop of main). -/
theorem find_html_files_not_sorted :
    find_html_files [(["tmp"], ["b.xhtml", "a.xhtml"])] =
      [["tmp", "b.xhtml"], ["tmp", "a.xhtml"]] ∧
    pathsSorted (find_html_files [(["tmp"], ["b.xhtml", "a.xhtml"])]) = false := by
  decide

theorem getLastD_append_single (root : List String) (f d : String) :
    (root ++ [f]).getLastD d = f := by
  induction root generalizing d with
  | nil => rfl
  | cons a as ih =>
    rw [List.cons_append, List.getLastD_cons]
    exact ih a

/-- Claim C10, amended: the enumeration of translatable files is exactly
the os.walk enumeration filtered by the three suffixes — each walked
directory contributes its matching files in the order the OS listing
yields them; the order is a deterministic function of the walk sequence,
but it is not sorted by relative path. -/
theorem find_html_files_eq_walk_filter :
    ∀ w : List (List String × List String),
      find_html_files w =
        (walkFilesAll w).filter (fun p => isHtmlName (p.getLastD ""))
  | [] => rfl
  | (root, files) :: rest => by
    rw [find_html_files, walkFilesAll, List.filter_append,
      find_html_files_eq_walk_filter rest]
    congr 1
    induction files with
    | nil => rfl
    | cons f fs ih =>
      rw [List.map_cons, List.filter_cons, List.filterMap_cons]
      rw [getLastD_append_single]
      by_cases hf : isHtmlName f
      · rw [hf]
        simp only [if_true]
        rw [ih]
      · rw [Bool.not_eq_true] at hf
        rw [hf]
        simp only [Bool.false_eq_true, if_false]
        rw [ih]

/-- A client that translates every segment to the fixed text "T". -/
def constClient : Unit → String → (String × Bool) × Unit :=
  fun s _ => (("T", true), s)

/-- Witness for cache_reuse_single_call: two identical paragraph nodes
under the constant client produce at most one client invocation on their
shared text. -/
theorem cache_reuse_single_call_witness :
    ((processNodes idHash constClient
        [⟨"p", "Hello world"⟩, ⟨"p", "Hello world"⟩] [] () false).trace.count
      "Hello world" ≤ 1) :=
  (cache_reuse_single_call idHash constClient
    (fun _ _ => (by decide : ("T" : String) ≠ ""))
    [⟨"p", "Hello world"⟩, ⟨"p", "Hello world"⟩] [] () false
    (fun _ _ h => nomatch h) "Hello world" (by decide)).1

end EpubTranslate
